import Mathlib

/-!
A verification development for the behavior3go behavior-tree engine.

The Go source is shallowly embedded: Go maps become total functions with an
empty default (lazy creation of tree/node memories in the source is
observationally the same as a total map defaulting to the empty memory),
`interface{}` values become the `GoValue` inductive of the dynamic types the
engine stores, and a Go type-assertion or `panic` becomes an `Option` result
where `none` marks the aborted execution path.
-/

/-- The four node statuses of the engine (`b3.SUCCESS` etc.). -/
inductive Status
  | SUCCESS
  | FAILURE
  | RUNNING
  | ERROR
deriving DecidableEq, Repr

/-- A dynamically typed value stored in a `Memory` (Go `interface{}`).
Each constructor is one Go dynamic type the accessors distinguish; the
float64 payload is carried as its raw bit pattern, on which the engine
performs no arithmetic. -/
inductive GoValue
  | vInt64 (n : Int)
  | vUInt64 (n : Nat)
  | vInt (n : Int)
  | vInt32 (n : Int)
  | vFloat64 (bits : Nat)
  | vBool (b : Bool)
  | vString (s : String)
deriving DecidableEq, Repr

/-- Go `Memory.Set`: `this._memory[key] = val`. -/
def memSet (m : String → Option GoValue) (key : String) (value : GoValue) :
    String → Option GoValue :=
  fun k => if k = key then some value else m k

/-- Go `Memory.Remove`: `delete(this._memory, key)`. -/
def memRemove (m : String → Option GoValue) (key : String) :
    String → Option GoValue :=
  fun k => if k = key then none else m k

/-- Go `TreeMemory`: the per-tree memory plus its per-node memories
(`_nodeMemory`).  `TreeData` (open-node bookkeeping) is not needed by any
claim and is omitted. -/
structure TreeMemory where
  mem : String → Option GoValue
  nodeMemory : String → String → Option GoValue

/-- Go `NewTreeMemory()`: everything starts empty. -/
def emptyTreeMemory : TreeMemory :=
  ⟨fun _ => none, fun _ _ => none⟩

/-- Go `Blackboard`: the global memory `_baseMemory` and the per-tree map
`_treeMemory` (lazily created in Go; a missing tree entry reads as the empty
`TreeMemory` here). -/
structure Blackboard where
  baseMemory : String → Option GoValue
  treeMemory : String → TreeMemory

/-- The in-memory state `Blackboard.Initialize` starts from. -/
def emptyBlackboard : Blackboard :=
  ⟨fun _ => none, fun _ => emptyTreeMemory⟩

/-- Go `Blackboard._getMemory(treeScope, nodeScope)`: tree and node scope select
the tier; an empty tree scope yields the global memory whatever the node
scope is. -/
def Blackboard.getMemory (bb : Blackboard) (treeScope nodeScope : String) :
    String → Option GoValue :=
  if 0 < treeScope.length then
    if 0 < nodeScope.length then
      (bb.treeMemory treeScope).nodeMemory nodeScope
    else
      (bb.treeMemory treeScope).mem
  else
    bb.baseMemory

/-- Go `Blackboard.Set(key, value, treeScope, nodeScope)`: writes into the
memory `_getMemory` selects.  The optional external `Storage` mirror is a
side effect on a collaborator outside the in-memory state modelled here. -/
def Blackboard.set (bb : Blackboard) (key : String) (value : GoValue)
    (treeScope nodeScope : String) : Blackboard :=
  if 0 < treeScope.length then
    if 0 < nodeScope.length then
      { bb with treeMemory := fun t =>
          if t = treeScope then
            { bb.treeMemory t with nodeMemory := fun n =>
                if n = nodeScope then
                  (memSet ((bb.treeMemory t).nodeMemory n) key value)
                else (bb.treeMemory t).nodeMemory n }
          else bb.treeMemory t }
    else
      { bb with treeMemory := fun t =>
          if t = treeScope then
            { bb.treeMemory t with mem := memSet (bb.treeMemory t).mem key value }
          else bb.treeMemory t }
  else
    { bb with baseMemory := memSet bb.baseMemory key value }

/-- Go `Blackboard.SetMem(key, value)`: `_getMemory("", "").Set(key, value)`. -/
def Blackboard.setMem (bb : Blackboard) (key : String) (value : GoValue) :
    Blackboard :=
  bb.set key value "" ""

/-- Go `Blackboard.SetTree(key, value, treeScope)`:
`_getMemory(treeScope, "").Set(key, value)`. -/
def Blackboard.setTree (bb : Blackboard) (key : String) (value : GoValue)
    (treeScope : String) : Blackboard :=
  bb.set key value treeScope ""

/-- Go `Blackboard.Remove(key)`: `_getMemory("", "").Remove(key)` — it takes no
scope parameters and always addresses the global memory. -/
def Blackboard.remove (bb : Blackboard) (key : String) : Blackboard :=
  { bb with baseMemory := memRemove bb.baseMemory key }

/-- Go `Blackboard.Get(key, treeScope, nodeScope)`. -/
def Blackboard.get (bb : Blackboard) (key treeScope nodeScope : String) :
    Option GoValue :=
  bb.getMemory treeScope nodeScope key

/-- Go `Blackboard.GetMem(key)`: `_getMemory("", "").Get(key)`. -/
def Blackboard.getMem (bb : Blackboard) (key : String) : Option GoValue :=
  bb.get key "" ""

/-- The Go type assertion `v.(int64)`: `some` on the right dynamic type,
`none` where Go panics. -/
def asInt64 : GoValue → Option Int
  | .vInt64 n => some n
  | _ => none

/-- The Go type assertion `v.(uint64)`. -/
def asUInt64 : GoValue → Option Nat
  | .vUInt64 n => some n
  | _ => none

/-- The Go type assertion `v.(int)`. -/
def asInt : GoValue → Option Int
  | .vInt n => some n
  | _ => none

/-- The Go type assertion `v.(int32)`. -/
def asInt32 : GoValue → Option Int
  | .vInt32 n => some n
  | _ => none

/-- The Go type assertion `v.(float64)` (payload is the bit pattern). -/
def asFloat64 : GoValue → Option Nat
  | .vFloat64 b => some b
  | _ => none

/-- The Go type assertion `v.(bool)`. -/
def asBool : GoValue → Option Bool
  | .vBool b => some b
  | _ => none

/-- Go `Blackboard.GetInt64`: returns `0` when the key is absent, otherwise the
assertion `v.(int64)`; `none` is the panicking path. -/
def Blackboard.getInt64 (bb : Blackboard) (key treeScope nodeScope : String) :
    Option Int :=
  match bb.get key treeScope nodeScope with
  | none => some 0
  | some v => asInt64 v

/-- Go `Blackboard.GetUInt64`. -/
def Blackboard.getUInt64 (bb : Blackboard) (key treeScope nodeScope : String) :
    Option Nat :=
  match bb.get key treeScope nodeScope with
  | none => some 0
  | some v => asUInt64 v

/-- Go `Blackboard.GetInt`. -/
def Blackboard.getInt (bb : Blackboard) (key treeScope nodeScope : String) :
    Option Int :=
  match bb.get key treeScope nodeScope with
  | none => some 0
  | some v => asInt v

/-- Go `Blackboard.GetInt32`. -/
def Blackboard.getInt32 (bb : Blackboard) (key treeScope nodeScope : String) :
    Option Int :=
  match bb.get key treeScope nodeScope with
  | none => some 0
  | some v => asInt32 v

/-- Go `Blackboard.GetFloat64` (result carried as float64 bits; the zero value
`0.0` is the all-zero pattern). -/
def Blackboard.getFloat64 (bb : Blackboard) (key treeScope nodeScope : String) :
    Option Nat :=
  match bb.get key treeScope nodeScope with
  | none => some 0
  | some v => asFloat64 v

/-- Go `Blackboard.GetBool`. -/
def Blackboard.getBool (bb : Blackboard) (key treeScope nodeScope : String) :
    Option Bool :=
  match bb.get key treeScope nodeScope with
  | none => some false
  | some v => asBool v

/-- The Go conversion `int64(u)` for a `uint64` operand: two's-complement
reinterpretation. -/
def uint64ToInt64 (n : Nat) : Int :=
  if n % 2 ^ 64 < 2 ^ 63 then (n % 2 ^ 64 : Int) else (n % 2 ^ 64 : Int) - 2 ^ 64

/-- The Go conversion `uint64(i)` for an `int64` operand. -/
def int64ToUInt64 (i : Int) : Nat :=
  (i % 2 ^ 64).toNat

/-- Go `ReadNumberToInt64`: converts only a `uint64` operand; every other
dynamic type panics (`none`). -/
def readNumberToInt64 : GoValue → Option Int
  | .vUInt64 n => some (uint64ToInt64 n)
  | _ => none

/-- Go `ReadNumberToUInt64`: converts only an `int64` operand; every other
dynamic type panics (`none`). -/
def readNumberToUInt64 : GoValue → Option Nat
  | .vInt64 n => some (int64ToUInt64 n)
  | _ => none

/-- Go `Blackboard.GetInt64Safe`: returns `0` when absent, else `ReadNumberToInt64`. -/
def Blackboard.getInt64Safe (bb : Blackboard) (key treeScope nodeScope : String) :
    Option Int :=
  match bb.get key treeScope nodeScope with
  | none => some 0
  | some v => readNumberToInt64 v

/-- Go `Blackboard.GetUInt64Safe`: returns `0` when absent, else `ReadNumberToUInt64`. -/
def Blackboard.getUInt64Safe (bb : Blackboard) (key treeScope nodeScope : String) :
    Option Nat :=
  match bb.get key treeScope nodeScope with
  | none => some 0
  | some v => readNumberToUInt64 v

/-- Accumulate a decimal digit run, as Go `strconv` does: fail on the first
non-digit character. -/
def digitsVal (acc : Nat) : List Char → Option Nat
  | [] => some acc
  | c :: cs =>
      if c.isDigit then digitsVal (acc * 10 + (c.toNat - '0'.toNat)) cs
      else none

/-- Go `strconv.Atoi(s)` restricted to a successful result (`err == nil`):
optional single sign, at least one digit, no other characters, and the value
within the 64-bit `int` range (out of range yields `ErrRange`, so `none`
here). -/
def goAtoi (s : String) : Option Int :=
  match s.toList with
  | [] => none
  | '+' :: rest =>
      match rest with
      | [] => none
      | _ => (digitsVal 0 rest).bind fun n =>
          if (n : Int) ≤ 2 ^ 63 - 1 then some (n : Int) else none
  | '-' :: rest =>
      match rest with
      | [] => none
      | _ => (digitsVal 0 rest).bind fun n =>
          if (n : Int) ≤ 2 ^ 63 then some (-(n : Int)) else none
  | cs => (digitsVal 0 cs).bind fun n =>
      if (n : Int) ≤ 2 ^ 63 - 1 then some (n : Int) else none

/-- The success threshold `maxN` computed at the top of `Parallel.OnTick`:
the child count, overridden by the `MaxSuccessCount` property when it is
present and `strconv.Atoi` parses it. -/
def parallelMaxN (count : Nat) (maxSuccessProp : Option String) : Int :=
  match maxSuccessProp with
  | some v =>
      match goAtoi v with
      | some i => i
      | none => (count : Int)
  | none => (count : Int)

/-- The `for i := 0; i < count; i++` loop of `Parallel.OnTick`: executes
child `i` (whose `Execute` result is `cs[i]`), counting SUCCESS results.
The second component logs the index of every child executed, in order. -/
def parallelRunChildren : List Status → Nat → Nat × List Nat
  | [], _ => (0, [])
  | c :: rest, i =>
      let r := parallelRunChildren rest (i + 1)
      ((if c = Status.SUCCESS then 1 else 0) + r.1, i :: r.2)

/-- Go `Parallel.OnTick`: here `children` lists the status each child's `Execute`
returns this tick; `maxSuccessProp` is `GetProperty("MaxSuccessCount")`.
Returns the aggregate status together with the execution log of the loop. -/
def parallelOnTick (children : List Status) (maxSuccessProp : Option String) :
    Status × List Nat :=
  let count := children.length
  let maxN := parallelMaxN count maxSuccessProp
  let r := parallelRunChildren children 0
  (if (r.1 : Int) ≥ maxN then Status.SUCCESS else Status.FAILURE, r.2)

/-- Go `Wait.OnOpen`: stores the current clock (milliseconds) under key
`"startTime"` in the (tree, node) scope of the ticking tree and node. -/
def waitOnOpen (bb : Blackboard) (treeId nodeId : String) (now : Int) :
    Blackboard :=
  bb.set "startTime" (GoValue.vInt64 now) treeId nodeId

/-- Go `Wait.OnTick`: reads `"startTime"` back with `GetInt64` (a wrong dynamic
type would panic, hence the `Option`) and returns SUCCESS when strictly more
than `endTime` milliseconds have elapsed, RUNNING otherwise.  `endTime` is
the `milliseconds` property read by `Initialize`. -/
def waitOnTick (endTime : Int) (bb : Blackboard) (treeId nodeId : String)
    (now : Int) : Option Status :=
  match bb.getInt64 "startTime" treeId nodeId with
  | none => none
  | some startTime =>
      some (if now - startTime > endTime then Status.SUCCESS else Status.RUNNING)

/-- One entry yielded by `Storage.Foreach`: key, value, tree scope, node
scope. -/
structure StorageEntry where
  key : String
  value : GoValue
  treeScope : String
  nodeScope : String
deriving DecidableEq, Repr

/-- The body of the `Foreach` visitor in `Blackboard.Initialize`: a tree and
node scope route to `Set`, a tree scope alone to `SetTree`, everything else
to `SetMem`. -/
def replayEntry (bb : Blackboard) (e : StorageEntry) : Blackboard :=
  if e.treeScope ≠ "" ∧ e.nodeScope ≠ "" then
    bb.set e.key e.value e.treeScope e.nodeScope
  else if e.treeScope ≠ "" then
    bb.setTree e.key e.value e.treeScope
  else
    bb.setMem e.key e.value

/-- Go `NewBlackboard(storage)` / `Blackboard.Initialize`: fresh memories, then
the storage's entries (`entries` lists what `Foreach` yields, in order)
replayed through the visitor. -/
def initializeBlackboard (entries : List StorageEntry) : Blackboard :=
  entries.foldl replayEntry emptyBlackboard

/-- The number of children whose status is SUCCESS (the spec's "counts
children returning SUCCESS"). -/
def successCount (cs : List Status) : Nat :=
  cs.countP (fun c => decide (c = Status.SUCCESS))

/-- The effective memory cell a (tree scope, node scope) pair addresses:
an empty tree scope addresses the global tier (whatever the node scope), a
tree scope alone the tree tier, both the node tier.  Proof-side
canonicalisation of `_getMemory`'s dispatch. -/
def gcell (key treeScope nodeScope : String) : String × String × String :=
  if treeScope = "" then (key, "", "")
  else if nodeScope = "" then (key, treeScope, "")
  else (key, treeScope, nodeScope)

theorem string_length_pos_iff (s : String) : 0 < s.length ↔ s ≠ "" := by
  cases s with
  | mk data => simp [String.length, String.ext_iff, List.length_pos]

/-- Master read-after-write lemma: a `Set` is visible exactly at the
effective cell it addresses. -/
theorem Blackboard.get_set (bb : Blackboard) (key : String) (value : GoValue)
    (treeScope nodeScope key' treeScope' nodeScope' : String) :
    (bb.set key value treeScope nodeScope).get key' treeScope' nodeScope' =
      if gcell key' treeScope' nodeScope' = gcell key treeScope nodeScope then some value
      else bb.get key' treeScope' nodeScope' := by
  by_cases ht : treeScope = "" <;> by_cases hn : nodeScope = "" <;>
    by_cases ht' : treeScope' = "" <;> by_cases hn' : nodeScope' = "" <;>
      simp only [Blackboard.set, Blackboard.get, Blackboard.getMemory, gcell, memSet,
        string_length_pos_iff, ht, hn, ht', hn', ite_apply, if_true, if_false, ne_eq,
        not_false_iff, not_true, ite_true, ite_false, Prod.mk.injEq] <;>
      split_ifs <;> (try simp only [ite_apply]) <;> (try split_ifs) <;> simp_all [memSet]

/-- Master read-after-remove lemma: `Remove` erases exactly the global cell
of its key. -/
theorem Blackboard.get_remove (bb : Blackboard) (key key' treeScope' nodeScope' : String) :
    (bb.remove key).get key' treeScope' nodeScope' =
      if gcell key' treeScope' nodeScope' = (key, "", "") then none
      else bb.get key' treeScope' nodeScope' := by
  by_cases ht' : treeScope' = "" <;> by_cases hn' : nodeScope' = "" <;>
    simp only [Blackboard.remove, Blackboard.get, Blackboard.getMemory, gcell, memRemove,
      string_length_pos_iff, ht', hn', ite_apply, Prod.mk.injEq] <;>
    split_ifs <;> simp_all

/-- The empty blackboard reads `none` everywhere. -/
theorem Blackboard.get_empty (key treeScope nodeScope : String) :
    emptyBlackboard.get key treeScope nodeScope = none := by
  by_cases ht : treeScope = "" <;> by_cases hn : nodeScope = "" <;>
    simp [emptyBlackboard, emptyTreeMemory, Blackboard.get, Blackboard.getMemory,
      string_length_pos_iff, ht, hn]

theorem parallelRunChildren_snd (cs : List Status) (i : Nat) :
    (parallelRunChildren cs i).2 = List.range' i cs.length := by
  induction cs generalizing i with
  | nil => simp [parallelRunChildren]
  | cons c rest ih => simp [parallelRunChildren, ih, List.range'_succ]

theorem parallelRunChildren_fst (cs : List Status) (i : Nat) :
    (parallelRunChildren cs i).1 = successCount cs := by
  induction cs generalizing i with
  | nil => simp [parallelRunChildren, successCount]
  | cons c rest ih =>
      by_cases hc : c = Status.SUCCESS <;>
        (simp [parallelRunChildren, ih, successCount, List.countP_cons, hc]; try omega)

theorem parallelRunChildren_error_failure (pre post : List Status) (i : Nat) :
    parallelRunChildren (pre ++ Status.ERROR :: post) i =
      parallelRunChildren (pre ++ Status.FAILURE :: post) i := by
  induction pre generalizing i with
  | nil => simp [parallelRunChildren]
  | cons c rest ih => simp [parallelRunChildren, ih]

theorem successCount_le_length (cs : List Status) : successCount cs ≤ cs.length :=
  List.countP_le_length _

/-- With no configured threshold, Parallel succeeds iff every child
succeeded. -/
theorem parallel_default_success_iff_all (cs : List Status) :
    (parallelOnTick cs none).1 = Status.SUCCESS ↔ ∀ c ∈ cs, c = Status.SUCCESS := by
  have hle := successCount_le_length cs
  have hiff : successCount cs = cs.length ↔ ∀ c ∈ cs, c = Status.SUCCESS := by
    constructor
    · intro hcount c hc
      have := List.countP_eq_length.mp hcount c hc
      simpa using this
    · intro hall
      apply List.countP_eq_length.mpr
      intro a ha
      simpa using hall a ha
  simp only [parallelOnTick, parallelMaxN, parallelRunChildren_fst]
  split_ifs with h
  · simp only [← hiff]
    constructor
    · intro _
      have h' : cs.length ≤ successCount cs := by exact_mod_cast h
      omega
    · intro _
      trivial
  · simp only [← hiff]
    constructor
    · intro hcontra
      exact absurd hcontra (by decide)
    · intro heq
      exfalso
      apply h
      rw [heq]

/-- C1: `Parallel.OnTick` executes every child exactly once in index order
(no short-circuit on FAILURE, RUNNING or ERROR), counts the SUCCESS
children, and returns SUCCESS exactly when that count meets or exceeds the
configured threshold, whose default is the child count; it never returns
RUNNING or ERROR, and an ERROR child contributes to the aggregate exactly
as a FAILURE child (it is not counted as a success).  Includes the spec's
example: children [SUCCESS, FAILURE, SUCCESS] give FAILURE by default and
SUCCESS with threshold 2. -/
theorem parallel_tick_counts_all_children (cs : List Status) (prop : Option String) :
    (parallelOnTick cs prop).2 = List.range cs.length ∧
    ((parallelOnTick cs prop).1 = Status.SUCCESS ∨ (parallelOnTick cs prop).1 = Status.FAILURE) ∧
    ((parallelOnTick cs prop).1 = Status.SUCCESS ↔
      (successCount cs : Int) ≥ parallelMaxN cs.length prop) ∧
    (prop = none →
      ((parallelOnTick cs prop).1 = Status.SUCCESS ↔ ∀ c ∈ cs, c = Status.SUCCESS)) ∧
    (∀ pre post, parallelOnTick (pre ++ Status.ERROR :: post) prop =
      parallelOnTick (pre ++ Status.FAILURE :: post) prop) ∧
    parallelOnTick [Status.SUCCESS, Status.FAILURE, Status.SUCCESS] none =
      (Status.FAILURE, [0, 1, 2]) ∧
    parallelOnTick [Status.SUCCESS, Status.FAILURE, Status.SUCCESS] (some "2") =
      (Status.SUCCESS, [0, 1, 2]) := by
  refine ⟨?_, ?_, ?_, ?_, ?_, by decide, by decide⟩
  · simp [parallelOnTick, parallelRunChildren_snd, List.range_eq_range']
  · simp only [parallelOnTick]
    split_ifs <;> simp
  · simp only [parallelOnTick, parallelRunChildren_fst]
    split_ifs with h
    · simpa using h
    · constructor
      · intro hcontra
        exact absurd hcontra (by decide)
      · intro hc
        exact absurd hc h
  · intro hprop
    subst hprop
    exact parallel_default_success_iff_all cs
  · intro pre post
    simp [parallelOnTick, parallelRunChildren_error_failure]

/-- Witness for C1 at a concrete input: two children [SUCCESS, ERROR] with
the default threshold do not reach it (ERROR is not a success). -/
theorem parallel_tick_counts_all_children_witness :
    (parallelOnTick [Status.SUCCESS, Status.ERROR] none).1 ≠ Status.SUCCESS := by
  intro hs
  have h := (parallel_tick_counts_all_children [Status.SUCCESS, Status.ERROR] none).2.2.2.1 rfl
  have := h.mp hs Status.ERROR (by simp)
  exact absurd this (by decide)

/-- C6: a missing `MaxSuccessCount` property, or one `strconv.Atoi` cannot
parse, silently falls back to the child count as the threshold (requiring
all children to succeed); a parseable integer value replaces the
threshold. -/
theorem parallel_threshold_soft_fallback (count : Nat) (s : String) (cs : List Status) :
    parallelMaxN count none = count ∧
    (goAtoi s = none → parallelMaxN count (some s) = count) ∧
    (∀ i, goAtoi s = some i → parallelMaxN count (some s) = i) ∧
    (goAtoi s = none → parallelOnTick cs (some s) = parallelOnTick cs none) ∧
    ((parallelOnTick cs none).1 = Status.SUCCESS ↔ ∀ c ∈ cs, c = Status.SUCCESS) := by
  refine ⟨by simp [parallelMaxN], ?_, ?_, ?_, parallel_default_success_iff_all cs⟩
  · intro h
    simp [parallelMaxN, h]
  · intro i h
    simp [parallelMaxN, h]
  · intro h
    simp [parallelOnTick, parallelMaxN, h]

/-- Witness for C6 at concrete inputs: the unparseable property `"abc"`
behaves exactly as an absent property on three children, and `"2"` replaces
the threshold. -/
theorem parallel_threshold_soft_fallback_witness :
    parallelMaxN 3 (some "abc") = 3 ∧ parallelMaxN 3 (some "2") = 2 := by
  have h := parallel_threshold_soft_fallback 3 "abc" []
  have h2 := parallel_threshold_soft_fallback 3 "2" []
  exact ⟨h.2.1 (by decide), h2.2.2.1 2 (by decide)⟩

/-- C2: `Set(k, v, t, n)` followed by `Get(k, t, n)` on the same blackboard
returns `v`, for every key, value and scope pair. -/
theorem blackboard_set_get_roundtrip (bb : Blackboard) (k : String) (v : GoValue)
    (t n : String) : (bb.set k v t n).get k t n = some v := by
  simp [Blackboard.get_set]

/-- C3: `Set(k, v, "", n)` with an empty tree scope is the same operation on
the in-memory state as the global `SetMem(k, v)`: it writes the global tier,
so `Get(k, "", n')` for any node scope and `GetMem(k)` both return `v`
afterward, and a lookup with a node identity but no tree identity always
resolves to the global memory. -/
theorem blackboard_node_scope_only_degrades_to_global (bb : Blackboard) (k : String)
    (v : GoValue) (n : String) :
    bb.set k v "" n = bb.setMem k v ∧
    (∀ n', (bb.set k v "" n).get k "" n' = some v) ∧
    (bb.set k v "" n).getMem k = some v ∧
    (∀ bb' : Blackboard, ∀ key n', bb'.get key "" n' = bb'.getMem key) := by
  refine ⟨rfl, ?_, ?_, fun bb' key n' => rfl⟩
  · intro n'
    simp [Blackboard.get_set, gcell]
  · simp [Blackboard.getMem, Blackboard.get_set, gcell]

theorem gcell_node (k t n : String) (ht : t ≠ "") (hn : n ≠ "") :
    gcell k t n = (k, t, n) := by
  simp [gcell, ht, hn]

theorem gcell_tree (k t : String) (ht : t ≠ "") : gcell k t "" = (k, t, "") := by
  simp [gcell, ht]

theorem gcell_global (k n : String) : gcell k "" n = (k, "", "") := by
  simp [gcell]

theorem gcell_eq_node_iff (k' t' n' k t n : String) (ht : t ≠ "") (hn : n ≠ "") :
    gcell k' t' n' = (k, t, n) ↔ k' = k ∧ t' = t ∧ n' = n := by
  by_cases ht' : t' = "" <;> by_cases hn' : n' = "" <;>
    simp [gcell, ht', hn', Prod.ext_iff, Ne.symm ht, Ne.symm hn, ht, hn]

theorem gcell_eq_tree_iff (k' t' n' k t : String) (ht : t ≠ "") :
    gcell k' t' n' = (k, t, "") ↔ k' = k ∧ t' = t ∧ n' = "" := by
  by_cases ht' : t' = "" <;> by_cases hn' : n' = "" <;>
    simp [gcell, ht', hn', Prod.ext_iff, Ne.symm ht, ht]

theorem gcell_eq_global_iff (k' t' n' k : String) :
    gcell k' t' n' = (k, "", "") ↔ k' = k ∧ t' = "" := by
  by_cases ht' : t' = "" <;> by_cases hn' : n' = "" <;>
    simp [gcell, ht', hn', Prod.ext_iff]

/-- C8: a write is invisible outside its own tier.  A node-scoped `Set`
changes nothing at any other scope pair, nor at the tree tier, nor at the
global tier; a `SetTree` leaves every node memory and the global tier
unchanged. -/
theorem blackboard_set_frame (bb : Blackboard) (k : String) (v : GoValue)
    (t n : String) (ht : t ≠ "") (hn : n ≠ "") :
    (∀ t' n', (t', n') ≠ (t, n) → (bb.set k v t n).get k t' n' = bb.get k t' n') ∧
    ((bb.set k v t n).get k t "" = bb.get k t "") ∧
    ((bb.set k v t n).getMem k = bb.getMem k) ∧
    (∀ t'', t'' ≠ "" →
      (∀ k' t' n', t' ≠ "" → n' ≠ "" →
        (bb.setTree k v t'').get k' t' n' = bb.get k' t' n') ∧
      (∀ k', (bb.setTree k v t'').getMem k' = bb.getMem k')) := by
  refine ⟨?_, ?_, ?_, ?_⟩
  · intro t' n' hne
    rw [Blackboard.get_set, if_neg]
    rw [gcell_node k t n ht hn, gcell_eq_node_iff k t' n' k t n ht hn]
    rintro ⟨-, ht2, hn2⟩
    exact hne (by rw [ht2, hn2])
  · rw [Blackboard.get_set, if_neg]
    rw [gcell_node k t n ht hn, gcell_eq_node_iff k t "" k t n ht hn]
    rintro ⟨-, -, hn2⟩
    exact hn hn2.symm
  · have hne' : ¬(gcell k "" "" = gcell k t n) := by
      rw [gcell_node k t n ht hn, gcell_eq_node_iff k "" "" k t n ht hn]
      rintro ⟨-, ht2, -⟩
      exact ht ht2.symm
    rw [Blackboard.getMem, Blackboard.get_set, if_neg hne']
    rfl
  · intro t'' ht''
    constructor
    · intro k' t' n' ht' hn'
      rw [Blackboard.setTree, Blackboard.get_set, if_neg]
      rw [gcell_tree k t'' ht'', gcell_eq_tree_iff k' t' n' k t'' ht'']
      rintro ⟨-, -, hn2⟩
      exact hn' hn2
    · intro k'
      have hne' : ¬(gcell k' "" "" = gcell k t'' "") := by
        rw [gcell_tree k t'' ht'', gcell_eq_tree_iff k' "" "" k t'' ht'']
        rintro ⟨-, ht2, -⟩
        exact ht'' ht2.symm
      rw [Blackboard.getMem, Blackboard.setTree, Blackboard.get_set, if_neg hne']
      rfl

/-- Witness for C8: a node-scoped write at ("t1", "n1") is invisible at
("t1", "n2"), at the tree tier and at the global tier, and a tree write at
"t1" is invisible at the node and global tiers. -/
theorem blackboard_set_frame_witness :
    ((emptyBlackboard.set "k" (GoValue.vInt64 7) "t1" "n1").get "k" "t1" "n2" = none) ∧
    ((emptyBlackboard.set "k" (GoValue.vInt64 7) "t1" "n1").get "k" "t1" "" = none) ∧
    ((emptyBlackboard.set "k" (GoValue.vInt64 7) "t1" "n1").getMem "k" = none) ∧
    ((emptyBlackboard.setTree "k" (GoValue.vInt64 7) "t1").get "k" "t1" "n1" = none) ∧
    ((emptyBlackboard.setTree "k" (GoValue.vInt64 7) "t1").getMem "k" = none) := by
  have h := blackboard_set_frame emptyBlackboard "k" (GoValue.vInt64 7) "t1" "n1"
    (by decide) (by decide)
  have h4 := h.2.2.2 "t1" (by decide)
  refine ⟨?_, ?_, ?_, ?_, ?_⟩
  · rw [h.1 "t1" "n2" (by decide)]
    exact Blackboard.get_empty "k" "t1" "n2"
  · rw [h.2.1]
    exact Blackboard.get_empty "k" "t1" ""
  · rw [h.2.2.1]
    exact Blackboard.get_empty "k" "" ""
  · rw [h4.1 "k" "t1" "n1" (by decide) (by decide)]
    exact Blackboard.get_empty "k" "t1" "n1"
  · rw [h4.2 "k"]
    exact Blackboard.get_empty "k" "" ""

/-- C10: `Remove(key)` takes no scope parameters and erases the key only
from the global tier: the whole per-tree structure is untouched, every
tree- or node-scoped read is unchanged, and values stored under a tree or
node scope survive a `Remove` of their key. -/
theorem blackboard_remove_global_only (bb : Blackboard) (k : String) :
    (bb.remove k).treeMemory = bb.treeMemory ∧
    (∀ k' t n, t ≠ "" → (bb.remove k).get k' t n = bb.get k' t n) ∧
    (∀ v t n, t ≠ "" → n ≠ "" → ((bb.set k v t n).remove k).get k t n = some v) ∧
    (∀ v t, t ≠ "" → ((bb.setTree k v t).remove k).get k t "" = some v) ∧
    (bb.remove k).getMem k = none := by
  refine ⟨rfl, ?_, ?_, ?_, ?_⟩
  · intro k' t n htne
    rw [Blackboard.get_remove, if_neg]
    rw [gcell_eq_global_iff k' t n k]
    rintro ⟨-, ht2⟩
    exact htne ht2
  · intro v t n htne hnne
    have hne' : ¬(gcell k t n = (k, "", "")) := by
      rw [gcell_eq_global_iff k t n k]
      rintro ⟨-, ht2⟩
      exact htne ht2
    rw [Blackboard.get_remove, if_neg hne']
    rw [Blackboard.get_set, if_pos rfl]
  · intro v t htne
    have hne' : ¬(gcell k t "" = (k, "", "")) := by
      rw [gcell_eq_global_iff k t "" k]
      rintro ⟨-, ht2⟩
      exact htne ht2
    rw [Blackboard.get_remove, if_neg hne']
    rw [Blackboard.setTree, Blackboard.get_set, if_pos rfl]
  · rw [Blackboard.getMem, Blackboard.get_remove, if_pos]
    rw [gcell_eq_global_iff k "" "" k]
    exact ⟨rfl, rfl⟩

/-- Witness for C10: after writing "k" at the node and tree tiers and
removing "k", both scoped reads still return the stored values. -/
theorem blackboard_remove_global_only_witness :
    (((emptyBlackboard.set "k" (GoValue.vInt64 5) "t1" "n1").remove "k").get "k" "t1" "n1" =
      some (GoValue.vInt64 5)) ∧
    (((emptyBlackboard.setTree "k" (GoValue.vInt64 6) "t1").remove "k").get "k" "t1" "" =
      some (GoValue.vInt64 6)) ∧
    ((emptyBlackboard.remove "k").getMem "k" = none) := by
  have h1 := blackboard_remove_global_only emptyBlackboard "k"
  exact ⟨h1.2.2.1 (GoValue.vInt64 5) "t1" "n1" (by decide) (by decide),
    h1.2.2.2.1 (GoValue.vInt64 6) "t1" (by decide), h1.2.2.2.2⟩

/-- C5: each typed accessor panics exactly when the key is present with a
value of a different dynamic type; an absent key yields the zero value of
the accessor's type, and a value of the right type is returned as is. -/
theorem blackboard_typed_accessors (bb : Blackboard) (k t n : String) :
    (bb.get k t n = none →
      bb.getInt64 k t n = some 0 ∧ bb.getUInt64 k t n = some 0 ∧
      bb.getInt k t n = some 0 ∧ bb.getInt32 k t n = some 0 ∧
      bb.getFloat64 k t n = some 0 ∧ bb.getBool k t n = some false) ∧
    (∀ v, bb.get k t n = some v →
      (((∀ i, v ≠ GoValue.vInt64 i) ↔ bb.getInt64 k t n = none) ∧
       (∀ i, v = GoValue.vInt64 i → bb.getInt64 k t n = some i)) ∧
      (((∀ i, v ≠ GoValue.vUInt64 i) ↔ bb.getUInt64 k t n = none) ∧
       (∀ i, v = GoValue.vUInt64 i → bb.getUInt64 k t n = some i)) ∧
      (((∀ i, v ≠ GoValue.vInt i) ↔ bb.getInt k t n = none) ∧
       (∀ i, v = GoValue.vInt i → bb.getInt k t n = some i)) ∧
      (((∀ i, v ≠ GoValue.vInt32 i) ↔ bb.getInt32 k t n = none) ∧
       (∀ i, v = GoValue.vInt32 i → bb.getInt32 k t n = some i)) ∧
      (((∀ b, v ≠ GoValue.vFloat64 b) ↔ bb.getFloat64 k t n = none) ∧
       (∀ b, v = GoValue.vFloat64 b → bb.getFloat64 k t n = some b)) ∧
      (((∀ b, v ≠ GoValue.vBool b) ↔ bb.getBool k t n = none) ∧
       (∀ b, v = GoValue.vBool b → bb.getBool k t n = some b))) := by
  constructor
  · intro h
    simp [Blackboard.getInt64, Blackboard.getUInt64, Blackboard.getInt,
      Blackboard.getInt32, Blackboard.getFloat64, Blackboard.getBool, h]
  · intro v hv
    cases v <;>
      simp [Blackboard.getInt64, Blackboard.getUInt64, Blackboard.getInt,
        Blackboard.getInt32, Blackboard.getFloat64, Blackboard.getBool, hv,
        asInt64, asUInt64, asInt, asInt32, asFloat64, asBool]

/-- Witness for C5: a bool stored under "k" makes `GetInt64` panic, while
`GetBool` returns it and an absent key reads as zero. -/
theorem blackboard_typed_accessors_witness :
    ((emptyBlackboard.setMem "k" (GoValue.vBool true)).getInt64 "k" "" "" = none) ∧
    ((emptyBlackboard.setMem "k" (GoValue.vBool true)).getBool "k" "" "" = some true) ∧
    (emptyBlackboard.getInt64 "k2" "" "" = some 0) := by
  have h := blackboard_typed_accessors (emptyBlackboard.setMem "k" (GoValue.vBool true)) "k" "" ""
  have h2 := blackboard_typed_accessors emptyBlackboard "k2" "" ""
  have hget : (emptyBlackboard.setMem "k" (GoValue.vBool true)).get "k" "" "" =
      some (GoValue.vBool true) := by decide
  have hv := h.2 (GoValue.vBool true) hget
  refine ⟨hv.1.1.mp (fun i h' => by cases h'), hv.2.2.2.2.2.2 true rfl, ?_⟩
  exact (h2.1 (by decide)).1

/-- C9: `GetInt64Safe` converts only a stored `uint64` (via
`ReadNumberToInt64`) and panics on every other non-nil type, including a
stored `int64`; symmetrically `GetUInt64Safe` accepts only a stored `int64`
and panics on everything else, including `uint64`; an absent key yields 0
for both. -/
theorem blackboard_safe_accessors (bb : Blackboard) (k t n : String) :
    (bb.get k t n = none →
      bb.getInt64Safe k t n = some 0 ∧ bb.getUInt64Safe k t n = some 0) ∧
    (∀ v, bb.get k t n = some v →
      (∀ u, v = GoValue.vUInt64 u → bb.getInt64Safe k t n = some (uint64ToInt64 u)) ∧
      ((∀ u, v ≠ GoValue.vUInt64 u) → bb.getInt64Safe k t n = none) ∧
      (∀ i, v = GoValue.vInt64 i → bb.getInt64Safe k t n = none) ∧
      (∀ i, v = GoValue.vInt64 i → bb.getUInt64Safe k t n = some (int64ToUInt64 i)) ∧
      ((∀ i, v ≠ GoValue.vInt64 i) → bb.getUInt64Safe k t n = none) ∧
      (∀ u, v = GoValue.vUInt64 u → bb.getUInt64Safe k t n = none)) := by
  constructor
  · intro h
    simp [Blackboard.getInt64Safe, Blackboard.getUInt64Safe, h]
  · intro v hv
    cases v <;>
      simp [Blackboard.getInt64Safe, Blackboard.getUInt64Safe, hv,
        readNumberToInt64, readNumberToUInt64]

/-- Witness for C9: a stored `int64` makes `GetInt64Safe` panic while
`GetUInt64Safe` converts it; a stored `uint64` does the reverse. -/
theorem blackboard_safe_accessors_witness :
    ((emptyBlackboard.setMem "k" (GoValue.vInt64 3)).getInt64Safe "k" "" "" = none) ∧
    ((emptyBlackboard.setMem "k" (GoValue.vInt64 3)).getUInt64Safe "k" "" "" = some 3) ∧
    ((emptyBlackboard.setMem "k" (GoValue.vUInt64 4)).getInt64Safe "k" "" "" = some 4) ∧
    ((emptyBlackboard.setMem "k" (GoValue.vUInt64 4)).getUInt64Safe "k" "" "" = none) := by
  have hi := blackboard_safe_accessors (emptyBlackboard.setMem "k" (GoValue.vInt64 3)) "k" "" ""
  have hu := blackboard_safe_accessors (emptyBlackboard.setMem "k" (GoValue.vUInt64 4)) "k" "" ""
  have hgi : (emptyBlackboard.setMem "k" (GoValue.vInt64 3)).get "k" "" "" =
      some (GoValue.vInt64 3) := by decide
  have hgu : (emptyBlackboard.setMem "k" (GoValue.vUInt64 4)).get "k" "" "" =
      some (GoValue.vUInt64 4) := by decide
  have hvi := hi.2 (GoValue.vInt64 3) hgi
  have hvu := hu.2 (GoValue.vUInt64 4) hgu
  refine ⟨hvi.2.2.1 3 rfl, ?_, ?_, hvu.2.2.2.2.2 4 rfl⟩
  · have := hvi.2.2.2.1 3 rfl
    rw [this]
    decide
  · have := hvu.1 4 rfl
    rw [this]
    decide

/-- C4 counterexample: with milliseconds=100, at exactly 100 elapsed
milliseconds (at least 100 have elapsed) `OnTick` still returns RUNNING,
not SUCCESS as the claim states, because the code compares with a strict
`>`. -/
theorem wait_tick_at_exact_elapsed_counterexample :
    (100 : Int) - 0 ≥ 100 ∧
    waitOnTick 100 (waitOnOpen emptyBlackboard "t1" "n1" 0) "t1" "n1" 100 =
      some Status.RUNNING ∧
    waitOnTick 100 (waitOnOpen emptyBlackboard "t1" "n1" 0) "t1" "n1" 100 ≠
      some Status.SUCCESS := by
  refine ⟨by decide, by decide, by decide⟩

/-- C4 (amended): after `OnOpen` records the start timestamp, `OnTick`
returns SUCCESS exactly when strictly more than 100 milliseconds have
elapsed, and RUNNING up to and including 100 elapsed milliseconds — in
particular immediately after `OnOpen` (elapsed 0). -/
theorem wait_tick_success_iff_strictly_elapsed (bb : Blackboard)
    (treeId nodeId : String) (t0 now : Int) :
    waitOnTick 100 (waitOnOpen bb treeId nodeId t0) treeId nodeId t0 =
      some Status.RUNNING ∧
    (now - t0 > 100 →
      waitOnTick 100 (waitOnOpen bb treeId nodeId t0) treeId nodeId now =
        some Status.SUCCESS) ∧
    (now - t0 ≤ 100 →
      waitOnTick 100 (waitOnOpen bb treeId nodeId t0) treeId nodeId now =
        some Status.RUNNING) := by
  have hstart : (waitOnOpen bb treeId nodeId t0).getInt64 "startTime" treeId nodeId =
      some t0 := by
    simp [waitOnOpen, Blackboard.getInt64, Blackboard.get_set, asInt64]
  refine ⟨?_, ?_, ?_⟩
  · simp only [waitOnTick, hstart]
    rw [if_neg (by omega)]
  · intro h
    simp only [waitOnTick, hstart]
    rw [if_pos h]
  · intro h
    simp only [waitOnTick, hstart]
    rw [if_neg (by omega)]

/-- Witness for C4 (amended) at concrete clocks: elapsed 0 and elapsed 100
give RUNNING, elapsed 101 gives SUCCESS. -/
theorem wait_tick_success_iff_strictly_elapsed_witness :
    waitOnTick 100 (waitOnOpen emptyBlackboard "t1" "n1" 0) "t1" "n1" 0 =
      some Status.RUNNING ∧
    waitOnTick 100 (waitOnOpen emptyBlackboard "t1" "n1" 0) "t1" "n1" 101 =
      some Status.SUCCESS ∧
    waitOnTick 100 (waitOnOpen emptyBlackboard "t1" "n1" 0) "t1" "n1" 100 =
      some Status.RUNNING := by
  have h := wait_tick_success_iff_strictly_elapsed emptyBlackboard "t1" "n1" 0 101
  have h2 := wait_tick_success_iff_strictly_elapsed emptyBlackboard "t1" "n1" 0 100
  exact ⟨h.1, h.2.1 (by decide), h2.2.2 (by decide)⟩

/-- Replaying one storage entry writes exactly the effective cell its scope
pair routes to. -/
theorem get_replayEntry (bb : Blackboard) (e : StorageEntry) (k t n : String) :
    (replayEntry bb e).get k t n =
      if gcell k t n = gcell e.key e.treeScope e.nodeScope then some e.value
      else bb.get k t n := by
  by_cases h1 : e.treeScope ≠ "" ∧ e.nodeScope ≠ ""
  · rw [replayEntry, if_pos h1, Blackboard.get_set]
  · by_cases h2 : e.treeScope ≠ ""
    · have hn : e.nodeScope = "" := by
        by_cases hh : e.nodeScope = ""
        · exact hh
        · exact absurd ⟨h2, hh⟩ h1
      rw [replayEntry, if_neg h1, if_pos h2]
      simp only [Blackboard.setTree]
      rw [Blackboard.get_set, hn]
    · have ht : e.treeScope = "" := not_not.mp h2
      rw [replayEntry, if_neg h1, if_neg h2]
      simp only [Blackboard.setMem]
      rw [Blackboard.get_set, ht]
      simp only [gcell_global]

/-- A fold of replays none of which addresses the read cell leaves the read
unchanged. -/
theorem get_foldl_replay_frame (entries : List StorageEntry) (bb : Blackboard)
    (k t n : String)
    (h : ∀ e ∈ entries, gcell e.key e.treeScope e.nodeScope ≠ gcell k t n) :
    (entries.foldl replayEntry bb).get k t n = bb.get k t n := by
  induction entries generalizing bb with
  | nil => rfl
  | cons x rest ih =>
      rw [List.foldl_cons, ih _ (fun e he => h e (List.mem_cons_of_mem x he))]
      rw [get_replayEntry, if_neg]
      intro hc
      exact h x (List.mem_cons_self x rest) hc.symm

theorem foldl_replay_roundtrip (entries : List StorageEntry) (bb : Blackboard)
    (hdist : entries.Pairwise (fun a b =>
      gcell a.key a.treeScope a.nodeScope ≠ gcell b.key b.treeScope b.nodeScope)) :
    ∀ e ∈ entries,
      (entries.foldl replayEntry bb).get e.key e.treeScope e.nodeScope = some e.value := by
  induction entries generalizing bb with
  | nil => intro e he; cases he
  | cons x rest ih =>
      intro e he
      rw [List.foldl_cons]
      rcases List.mem_cons.mp he with rfl | hmem
      · rw [get_foldl_replay_frame rest _ _ _ _
          (fun e' he' => ((List.pairwise_cons.mp hdist).1 e' he').symm)]
        rw [get_replayEntry, if_pos rfl]
      · exact ih _ (List.pairwise_cons.mp hdist).2 e hmem

/-- C7 counterexample: the two distinct entries ("k", 1, "", "n1") and
("k", 2, "", "n2") both route to the global cell of "k", so after replay
the first entry's `Get` returns the second entry's value, not its own —
the claim as stated fails on this storage. -/
theorem initialize_replay_collision_counterexample :
    ((initializeBlackboard
        [⟨"k", GoValue.vInt64 1, "", "n1"⟩, ⟨"k", GoValue.vInt64 2, "", "n2"⟩]).get
        "k" "" "n1" = some (GoValue.vInt64 2)) ∧
    ((initializeBlackboard
        [⟨"k", GoValue.vInt64 1, "", "n1"⟩, ⟨"k", GoValue.vInt64 2, "", "n2"⟩]).get
        "k" "" "n1" ≠ some (GoValue.vInt64 1)) := ⟨by decide, by decide⟩

/-- C7 (amended): constructing a blackboard over a storage replays every
entry into the tier its scope pair routes to (tree+node scope to node
memory, tree scope alone to tree memory, all others — including a node
scope with empty tree scope — to global memory), so that `Get` at each
entry's own scope returns the persisted value, provided no two entries
address the same effective cell; a colliding earlier entry is overwritten
by the later one. -/
theorem initialize_replay_roundtrip (entries : List StorageEntry)
    (hdist : entries.Pairwise (fun a b =>
      gcell a.key a.treeScope a.nodeScope ≠ gcell b.key b.treeScope b.nodeScope)) :
    ∀ e ∈ entries,
      (initializeBlackboard entries).get e.key e.treeScope e.nodeScope = some e.value :=
  foldl_replay_roundtrip entries emptyBlackboard hdist

/-- Witness for C7 (amended) on a three-entry storage touching all three
tiers. -/
theorem initialize_replay_roundtrip_witness :
    (initializeBlackboard
        [⟨"a", GoValue.vInt64 1, "", ""⟩, ⟨"b", GoValue.vInt64 2, "t1", ""⟩,
         ⟨"c", GoValue.vInt64 3, "t1", "n1"⟩]).get "b" "t1" "" =
      some (GoValue.vInt64 2) := by
  have h := initialize_replay_roundtrip
    [⟨"a", GoValue.vInt64 1, "", ""⟩, ⟨"b", GoValue.vInt64 2, "t1", ""⟩,
     ⟨"c", GoValue.vInt64 3, "t1", "n1"⟩] (by decide)
  exact h ⟨"b", GoValue.vInt64 2, "t1", ""⟩ (by decide)
